import Mathlib

/-!
Shallow embedding of the `cpp-simple-vector` repository
(`src/simple-vector/array_ptr.h` and `src/simple-vector/simple_vector.h`).

Buffers are modelled as Lean lists: an `ArrayPtr` holds `Option (List α)`
(`none` is the null pointer), and a `SimpleVector` holds the contents of its
owned allocation as a `List α` whose length is the number of allocated slots,
together with the `size_` and `capacity_` fields.  Element reads `data_[i]`
become `List.getD`, writes become `List.set`; `std::copy` / `std::move` of a
range into a destination buffer with enough room becomes `writeFront`.
The element type `α` carries an `Inhabited` instance whose `default` plays the
role of the C++ value-initialised `Type()`.
-/

namespace SimpleVec

/-- Writes the whole of `src` into `dst` starting at offset 0, keeping the tail
of `dst` beyond `src.length` (the semantics of `std::copy`/`std::move` of
`src` into a destination with at least `src.length` slots). -/
def writeFront {α : Type} (src dst : List α) : List α :=
  src ++ dst.drop src.length

/-! ## ArrayPtr (src/simple-vector/array_ptr.h) -/

/-- Models `ArrayPtr<Type>`: owns a heap array (`some buf`) or is null (`none`). -/
structure ArrayPtr (α : Type) where
  buf : Option (List α)
deriving Repr, DecidableEq

namespace ArrayPtr

/-- Models `ArrayPtr(size_t size)` (array_ptr.h lines 15-20): allocates `size`
default-valued elements; `size == 0` leaves the null pointer. -/
def alloc {α : Type} [Inhabited α] (n : Nat) : ArrayPtr α :=
  ⟨if n = 0 then none else some (List.replicate n default)⟩

/-- Models `operator bool` (array_ptr.h lines 67-69): true iff the pointer is non-null. -/
def toBool {α : Type} (a : ArrayPtr α) : Bool :=
  a.buf.isSome

/-- Move constructor (array_ptr.h lines 27-28):
`raw_ptr_(std::move(other.Get()))`.  `Get()` returns the raw pointer by value,
so the source's `raw_ptr_` is copied into the destination and the source is
left untouched (it is NOT set to null).  Returns
(constructed destination, source after the call). -/
def moveCtor {α : Type} (src : ArrayPtr α) : ArrayPtr α × ArrayPtr α :=
  (⟨src.buf⟩, src)

/-- Move assignment (array_ptr.h lines 41-46) for `this ≠ &other`:
`raw_ptr_ = std::move(other.Get())` overwrites the destination's pointer with
the source's; the source is left untouched.  Returns
(destination after, source after). -/
def moveAssign {α : Type} (_dest src : ArrayPtr α) : ArrayPtr α × ArrayPtr α :=
  (⟨src.buf⟩, src)

/-- Self move assignment: the `this != &other` guard makes it a no-op. -/
def moveAssignSelf {α : Type} (a : ArrayPtr α) : ArrayPtr α :=
  a

/-- Models `Release()` (array_ptr.h lines 50-54): returns the raw pointer and nulls
the member. -/
def release {α : Type} (a : ArrayPtr α) : Option (List α) × ArrayPtr α :=
  (a.buf, ⟨none⟩)

end ArrayPtr

/-! ## SimpleVector (src/simple-vector/simple_vector.h)

`data` is the contents of the owned allocation (`data.length` = number of
allocated element slots; the empty list is the null buffer), `size` and
`capacity` are the `size_` and `capacity_` members. -/

structure SV (α : Type) where
  data : List α
  size : Nat
  capacity : Nat
deriving Repr, DecidableEq

namespace SV

variable {α : Type} [Inhabited α]

/-- Models `data_[i]` read (in-bounds by the caller's contract in the source). -/
def elemAt (v : SV α) (i : Nat) : α :=
  v.data.getD i default

/-- The logical contents: elements at indices `[0, size)`. -/
def toList (v : SV α) : List α :=
  (List.range v.size).map v.elemAt

/-- Default constructor (line 34): empty, capacity 0, null buffer. -/
def empt : SV α := ⟨[], 0, 0⟩

/-- Models `Reserve(new_capacity)` (lines 247-262): no-op when
`new_capacity <= capacity_`; otherwise builds a fresh default-valued buffer of
`new_capacity` slots, moves the `size_` live elements into its front, swaps it
in and updates `capacity_`. -/
def Reserve (v : SV α) (newCap : Nat) : SV α :=
  if newCap ≤ v.capacity then v
  else
    { v with
      data := writeFront (v.data.take v.size) (List.replicate newCap default)
      capacity := newCap }

/-- Models `Resize(new_size)` (lines 275-292): shrink is a pure size update;
otherwise build a fresh default buffer of `new_size` slots, move the live
elements in, swap, and set `size_ = capacity_ = new_size`. -/
def Resize (v : SV α) (newSize : Nat) : SV α :=
  if newSize < v.size then { v with size := newSize }
  else
    { data := writeFront (v.data.take v.size) (List.replicate newSize default)
      size := newSize
      capacity := newSize }

/-- Models `PushBack(const Type&)` (lines 110-118): store in place when
`size_ < capacity_`, else `Reserve(size_ + 1)` first; then
`data_[size_++] = item`. -/
def PushBackCopy (v : SV α) (item : α) : SV α :=
  if v.size < v.capacity then
    { v with data := v.data.set v.size item, size := v.size + 1 }
  else
    let w := Reserve v (v.size + 1)
    { w with data := w.data.set w.size item, size := w.size + 1 }

/-- Models `PushBack(Type&&)` (lines 121-129): same but grows with
`Reserve(size_*2 + 1)`. -/
def PushBackMove (v : SV α) (item : α) : SV α :=
  if v.size < v.capacity then
    { v with data := v.data.set v.size item, size := v.size + 1 }
  else
    let w := Reserve v (v.size * 2 + 1)
    { w with data := w.data.set w.size item, size := w.size + 1 }

/-- The in-place backward shift
`copy_backward/move_backward(data_ + p, data_ + size, data_ + size + 1)`:
slot `i+1` receives the old slot `i` for `i ∈ [p, size)`, slots `≤ p` and
`> size` keep their values. -/
def shiftUpFrom (l : List α) (p sz : Nat) : List α :=
  l.take (p + 1) ++ (l.drop p).take (sz - p) ++ l.drop (sz + 1)

/-- Copy overload of `SeсureInsert` (lines 185-204): allocates a scratch
buffer `copy` of `capacity_` default slots, shifts `[p, size_)` one slot right
in place on the live buffer, writes `value` at `p`, then executes
`data_.swap(copy)` — which installs the scratch buffer as `data_` and leaves
the shifted buffer in the local `copy`, destroyed on return — and increments
`size_`.  Returns (vector after, returned iterator offset). -/
def SecureInsertCopy (v : SV α) (p : Nat) (value : α) : SV α × Nat :=
  let copy : List α := List.replicate v.capacity default
  let shifted := (shiftUpFrom v.data p v.size).set p value
  -- data_.swap(copy): data_ receives the fresh default buffer, `copy`
  -- receives the shifted contents and is deallocated when the function ends
  let swapped : List α × List α := (copy, shifted)
  ({ v with data := swapped.fst, size := v.size + 1 }, p)

/-- Move overload of `SeсureInsert` (lines 207-216): shifts `[p, size_)` one
slot right in place, writes `value` at `p`, increments `size_`. -/
def SecureInsertMove (v : SV α) (p : Nat) (value : α) : SV α × Nat :=
  ({ v with data := (shiftUpFrom v.data p v.size).set p value, size := v.size + 1 }, p)

/-- The live buffer after the first `k` element copy assignments of the
in-place `copy_backward(data_ + p, data_ + size_, data_ + size_ + 1)` in the
copy overload of `SeсureInsert`.  The copies run back to front: the j-th copy
reads old slot `size - j` and writes it into slot `size + 1 - j`, so after `k`
copies the slots in `(size - k, size]` hold the old values of their left
neighbours and every other slot is untouched (`k ≤ size - p`). -/
def copyBackwardSteps (l : List α) (sz k : Nat) : List α :=
  l.take (sz + 1 - k) ++ (l.drop (sz - k)).take k ++ l.drop (sz + 1)

/-- Observable vector state when the `k+1`-st element copy assignment of the
in-place backward shift throws inside the copy overload of `SeсureInsert`
(reached from the copy path of `Insert`): the catch block only destroys the
scratch buffer and rethrows, so `size_` and `capacity_` are untouched while
the live buffer already holds the partial shift. -/
def SecureInsertCopyFault (v : SV α) (k : Nat) : SV α :=
  { v with data := copyBackwardSteps v.data v.size k }

/-- Copy construction (lines 64-79) interrupted by a throw in the `k+1`-st
element copy of `std::copy(other.begin(), other.end(), copy.Get())`: the
catch destroys the partially filled buffer and rethrows before any member of
the new object or of the source is assigned.  Returns (the source after the
call — it is only ever read —, the discarded partial buffer). -/
def copyCtorFault (v : SV α) (k : Nat) : SV α × List α :=
  (v, writeFront (v.data.take k) (List.replicate v.capacity default))

/-- Copy overload of `Insert(pos, value)` (lines 137-158), with `pos`
represented by its offset `p ∈ [0, size_]`.  `pos == cend()` delegates to
`PushBack` and returns `prev(end())`; with spare capacity it calls the copy
`SeсureInsert`; otherwise it saves the offset, `Resize(size_ + 1)`, and calls
the copy `SeсureInsert` on the reallocated buffer. -/
def InsertCopy (v : SV α) (p : Nat) (value : α) : SV α × Nat :=
  if p = v.size then
    let w := PushBackCopy v value
    (w, w.size - 1)
  else if v.size < v.capacity then
    SecureInsertCopy v p value
  else
    SecureInsertCopy (Resize v (v.size + 1)) p value

/-- Move overload of `Insert(pos, value)` (lines 161-181): as the copy
overload, but the full-capacity path grows with `Reserve(size_ + 1)` and both
paths use the move `SeсureInsert`. -/
def InsertMove (v : SV α) (p : Nat) (value : α) : SV α × Nat :=
  if p = v.size then
    let w := PushBackMove v value
    (w, w.size - 1)
  else if v.size < v.capacity then
    SecureInsertMove v p value
  else
    SecureInsertMove (Reserve v (v.size + 1)) p value

/-- Models `PopBack()` (lines 219-222): decrements `size_` (precondition `size_ > 0`). -/
def PopBack (v : SV α) : SV α :=
  { v with size := v.size - 1 }

/-- Models `Erase(pos)` (lines 225-245), `pos` as offset `p < size_`: builds a fresh
default buffer of `size_` slots, moves `[0, p)` and then `(p, size_)` into its
front, swaps it in (leaving `capacity_` untouched), decrements `size_`.
Returns (vector after, returned iterator offset). -/
def Erase (v : SV α) (p : Nat) : SV α × Nat :=
  let moved := v.data.take p ++ (v.data.drop (p + 1)).take (v.size - (p + 1))
  ({ v with
      data := writeFront moved (List.replicate v.size default)
      size := v.size - 1 }, p)

/-- Models `Clear()` (lines 340-342): zeroes `size_`, buffer and `capacity_` untouched. -/
def Clear (v : SV α) : SV α :=
  { v with size := 0 }

/-- Models `swap(SimpleVector&)` (lines 265-271) for distinct objects: exchanges
buffer, size and capacity. -/
def swapV (a b : SV α) : SV α × SV α :=
  (b, a)

/-- Copy constructor (lines 64-79): allocates a buffer of `other.capacity_`
default slots, copies the `size_` live elements into its front, swaps it in
and copies `size_` and `capacity_`. -/
def copyCtor (v : SV α) : SV α :=
  { data := writeFront (v.data.take v.size) (List.replicate v.capacity default)
    size := v.size
    capacity := v.capacity }

/-- Move assignment (lines 99-104) for `this ≠ &rhs`: `swap(rhs)`.  Returns
(destination after, source after). -/
def moveAssign (dest src : SV α) : SV α × SV α :=
  swapV dest src

/-- Move constructor (lines 82-84): default-initialise, then
`*this = std::move(other)`.  Returns (constructed vector, source after). -/
def moveCtor (src : SV α) : SV α × SV α :=
  moveAssign empt src

/-- Copy assignment (lines 87-96) for `this ≠ &rhs`: copy-construct a
temporary from `rhs` and swap it in; the result is the deep copy. -/
def copyAssign (_dest src : SV α) : SV α :=
  copyCtor src

/-- Models `At(index)` (lines 296-312, both overloads): throws `std::out_of_range`
when `index >= size_`, else returns `data_[index]`. -/
def At (v : SV α) (i : Nat) : Except String α :=
  if i ≥ v.size then .error "out of range" else .ok (v.data.getD i default)

/-- Models `SimpleVector(size_t size)` (lines 37-41): `Reserve(size)` from the
default state, then `size_ = capacity_ = size`. -/
def mkSized (n : Nat) : SV α :=
  { Reserve (empt : SV α) n with size := n, capacity := n }

/-- Models `SimpleVector(size, value)` (lines 44-49): as `mkSized`, then fills the
`size` slots with `value`. -/
def mkSizedFill (n : Nat) (x : α) : SV α :=
  { (mkSized n : SV α) with
    data := writeFront (List.replicate n x) (mkSized n : SV α).data }

/-- Models `SimpleVector(std::initializer_list)` (lines 52-56): buffer of
`init.size()` slots, `size_ = capacity_ = init.size()`, elements moved in. -/
def fromList (l : List α) : SV α :=
  { data := writeFront l (List.replicate l.length default)
    size := l.length
    capacity := l.length }

/-- Models `SimpleVector(ReserveProxyObj)` (lines 58-61): `Reserve(n)` from the
default state, `size_ = 0`. -/
def mkReserved (n : Nat) : SV α :=
  { Reserve (empt : SV α) n with size := 0 }

/-- Well-formedness a C++ `SimpleVector` is supposed to maintain: the size
does not exceed the capacity and the allocation has exactly `capacity_`
slots. -/
def WF (v : SV α) : Prop :=
  v.size ≤ v.capacity ∧ v.data.length = v.capacity

instance instDecidableWF {β : Type} (v : SV β) : Decidable (WF v) :=
  decidable_of_iff (v.size ≤ v.capacity ∧ v.data.length = v.capacity) Iff.rfl

end SV



/-! ## Helper lemmas -/

theorem getD_take_of_lt {α : Type} (l : List α) (n i : Nat) (d : α) (h : i < n) :
    (l.take n).getD i d = l.getD i d := by
  simp [List.getD_eq_getElem?_getD, List.getElem?_take, h]

theorem getD_drop_add {α : Type} (l : List α) (n i : Nat) (d : α) :
    (l.drop n).getD i d = l.getD (n + i) d := by
  simp [List.getD_eq_getElem?_getD, List.getElem?_drop]

theorem getD_replicate_of_lt {α : Type} (n i : Nat) (x d : α) (h : i < n) :
    (List.replicate n x).getD i d = x := by
  simp [List.getD_eq_getElem?_getD, List.getElem?_replicate, h]

theorem getD_set_at {α : Type} (l : List α) (i : Nat) (x d : α) (h : i < l.length) :
    (l.set i x).getD i d = x := by
  simp [List.getD_eq_getElem?_getD, List.getElem?_set_self, h]

theorem getD_set_other {α : Type} (l : List α) (i j : Nat) (x d : α) (h : i ≠ j) :
    (l.set i x).getD j d = l.getD j d := by
  simp [List.getD_eq_getElem?_getD, List.getElem?_set_ne, h]

theorem writeFront_length {α : Type} (s d : List α) :
    (writeFront s d).length = s.length + (d.length - s.length) := by
  simp [writeFront]

theorem getD_writeFront_lt {α : Type} (s d : List α) (i : Nat) (x : α)
    (h : i < s.length) : (writeFront s d).getD i x = s.getD i x :=
  List.getD_append _ _ _ _ h

namespace SV

variable {α : Type} [Inhabited α]

theorem Reserve_noop {v : SV α} {n : Nat} (h : n ≤ v.capacity) :
    Reserve v n = v := by
  unfold Reserve; rw [if_pos h]

theorem Reserve_grow {v : SV α} {n : Nat} (h : v.capacity < n) :
    Reserve v n =
      { v with
        data := writeFront (v.data.take v.size) (List.replicate n default)
        capacity := n } := by
  unfold Reserve; rw [if_neg (by omega)]

theorem Reserve_size (v : SV α) (n : Nat) : (Reserve v n).size = v.size := by
  unfold Reserve; split <;> rfl

theorem Reserve_capacity_grow {v : SV α} {n : Nat} (h : v.capacity < n) :
    (Reserve v n).capacity = n := by
  rw [Reserve_grow h]

theorem Reserve_length {v : SV α} (hWF : WF v) {n : Nat} (h : v.capacity < n) :
    (Reserve v n).data.length = n := by
  obtain ⟨h1, h2⟩ := hWF
  rw [Reserve_grow h]
  simp only [writeFront_length, List.length_take, List.length_replicate, h2]
  omega

theorem Reserve_elemAt {v : SV α} (hWF : WF v) (n : Nat) {i : Nat} (hi : i < v.size) :
    (Reserve v n).elemAt i = v.elemAt i := by
  obtain ⟨h1, h2⟩ := hWF
  unfold Reserve
  split
  · rfl
  · show (writeFront (v.data.take v.size) (List.replicate n default)).getD i default
      = v.data.getD i default
    rw [getD_writeFront_lt _ _ _ _ (by simp [List.length_take]; omega)]
    exact getD_take_of_lt _ _ _ _ hi

theorem Reserve_WF {v : SV α} (hWF : WF v) (n : Nat) : WF (Reserve v n) := by
  obtain ⟨h1, h2⟩ := hWF
  by_cases h : n ≤ v.capacity
  · rw [Reserve_noop h]; exact ⟨h1, h2⟩
  · refine ⟨?_, ?_⟩
    · rw [Reserve_size, Reserve_capacity_grow (by omega)]; omega
    · rw [Reserve_length ⟨h1, h2⟩ (by omega), Reserve_capacity_grow (by omega)]

omit [Inhabited α] in
theorem copyBackwardSteps_zero (l : List α) (sz : Nat) :
    copyBackwardSteps l sz 0 = l := by
  simp [copyBackwardSteps]

omit [Inhabited α] in
theorem shiftUpFrom_length {l : List α} {p sz : Nat} (hp : p ≤ sz)
    (hsz : sz < l.length) : (shiftUpFrom l p sz).length = l.length := by
  unfold shiftUpFrom
  simp only [List.length_append, List.length_take, List.length_drop]
  omega

end SV

/-! ## Claim theorems -/

/-- C1 (code bug): the copy overload of `Insert`, at a valid non-end position
of a vector with spare capacity, is supposed to leave the value at the
position with later elements shifted right; instead `SeсureInsert`'s
`data_.swap(copy)` installs the freshly default-constructed scratch buffer as
the vector's storage and destroys the shifted buffer holding the inserted
value, so every element of the result is default-valued.  Evaluated on the
vector `[1,2,3]` with capacity 4 (reached by three `PushBack`s on a
reserve-hint-4 vector), inserting 10 at offset 1. -/
theorem C1_insert_copy_destroys_contents :
    (SV.PushBackCopy (SV.PushBackCopy (SV.PushBackCopy (SV.mkReserved 4) 1) 2) 3 : SV Nat)
      = ⟨[1, 2, 3, 0], 3, 4⟩ ∧
    SV.InsertCopy (⟨[1, 2, 3, 0], 3, 4⟩ : SV Nat) 1 10 = (⟨[0, 0, 0, 0], 4, 4⟩, 1) ∧
    (SV.InsertCopy (⟨[1, 2, 3, 0], 3, 4⟩ : SV Nat) 1 10).1.elemAt 1 ≠ 10 ∧
    (SV.InsertCopy (⟨[1, 2, 3, 0], 3, 4⟩ : SV Nat) 1 10).1.elemAt 0 ≠ 1 := by
  decide

/-- C2 (code bug): the invariant `size ≤ capacity` is broken by the copy
overload of `Insert` on a full vector: `Insert` calls `Resize(size_ + 1)`
(which already sets `size_ = capacity_ = size + 1`) and then `SeсureInsert`
increments `size_` once more, ending with `size_ = capacity_ + 1`.  Evaluated
on the full vector `{1, 2}`, inserting 5 at offset 0. -/
theorem C2_size_exceeds_capacity :
    (SV.fromList [1, 2] : SV Nat) = ⟨[1, 2], 2, 2⟩ ∧
    (SV.InsertCopy (SV.fromList [1, 2] : SV Nat) 0 5).1.size = 4 ∧
    (SV.InsertCopy (SV.fromList [1, 2] : SV Nat) 0 5).1.capacity = 3 ∧
    ¬ (SV.InsertCopy (SV.fromList [1, 2] : SV Nat) 0 5).1.size ≤
        (SV.InsertCopy (SV.fromList [1, 2] : SV Nat) 0 5).1.capacity := by
  decide

/-- C3 (code bug): `ArrayPtr`'s move constructor and move assignment read the
source pointer with `std::move(other.Get())`, which copies the raw pointer by
value and never nulls `other.raw_ptr_`; the source is left holding the same
allocation (so both owners will `delete[]` it), and its boolean conversion
stays `true`, contradicting the claimed "source becomes empty".  Evaluated on
an `ArrayPtr` of one element. -/
theorem C3_arrayptr_move_leaves_source :
    ((ArrayPtr.moveCtor (ArrayPtr.alloc 1 : ArrayPtr Nat)).2).toBool = true ∧
    (ArrayPtr.moveCtor (ArrayPtr.alloc 1 : ArrayPtr Nat)).2 = ArrayPtr.alloc 1 ∧
    (ArrayPtr.moveCtor (ArrayPtr.alloc 1 : ArrayPtr Nat)).1.buf
      = (ArrayPtr.moveCtor (ArrayPtr.alloc 1 : ArrayPtr Nat)).2.buf ∧
    ((ArrayPtr.moveAssign (ArrayPtr.alloc 2) (ArrayPtr.alloc 1 : ArrayPtr Nat)).2).toBool
      = true := by
  decide


namespace SV

variable {α : Type} [Inhabited α]

theorem PushBackCopy_len {v : SV α} (h : WF v) (x : α) :
    (PushBackCopy v x).data.length = (PushBackCopy v x).capacity := by
  obtain ⟨h1, h2⟩ := h
  by_cases hc : v.size < v.capacity
  · simp only [PushBackCopy, if_pos hc, List.length_set]
    exact h2
  · have hcap : v.capacity < v.size + 1 := by omega
    simp only [PushBackCopy, if_neg hc, List.length_set]
    rw [Reserve_length ⟨h1, h2⟩ hcap, Reserve_capacity_grow hcap]

theorem PushBackMove_len {v : SV α} (h : WF v) (x : α) :
    (PushBackMove v x).data.length = (PushBackMove v x).capacity := by
  obtain ⟨h1, h2⟩ := h
  by_cases hc : v.size < v.capacity
  · simp only [PushBackMove, if_pos hc, List.length_set]
    exact h2
  · have hcap : v.capacity < v.size * 2 + 1 := by omega
    simp only [PushBackMove, if_neg hc, List.length_set]
    rw [Reserve_length ⟨h1, h2⟩ hcap, Reserve_capacity_grow hcap]

theorem SecureInsertCopy_len (v : SV α) (p : Nat) (x : α) :
    (SecureInsertCopy v p x).1.data.length = (SecureInsertCopy v p x).1.capacity := by
  simp [SecureInsertCopy]

theorem InsertCopy_len {v : SV α} (h : WF v) (p : Nat) (x : α) :
    (InsertCopy v p x).1.data.length = (InsertCopy v p x).1.capacity := by
  by_cases h1 : p = v.size
  · simp only [InsertCopy, if_pos h1]
    exact PushBackCopy_len h x
  · by_cases h2 : v.size < v.capacity
    · simp only [InsertCopy, if_neg h1, if_pos h2]
      exact SecureInsertCopy_len v p x
    · simp only [InsertCopy, if_neg h1, if_neg h2]
      exact SecureInsertCopy_len _ p x

theorem Resize_WF {v : SV α} (h : WF v) (n : Nat) : WF (Resize v n) := by
  obtain ⟨h1, h2⟩ := h
  by_cases hn : n < v.size
  · exact ⟨by simp only [Resize, if_pos hn]; omega, by simp only [Resize, if_pos hn]; exact h2⟩
  · refine ⟨by simp only [Resize, if_neg hn]; omega, ?_⟩
    simp only [Resize, if_neg hn, writeFront_length, List.length_take, List.length_replicate]
    omega

theorem InsertMove_len {v : SV α} (h : WF v) {p : Nat} (hp : p ≤ v.size) (x : α) :
    (InsertMove v p x).1.data.length = (InsertMove v p x).1.capacity := by
  obtain ⟨h1, h2⟩ := h
  by_cases he : p = v.size
  · simp only [InsertMove, if_pos he]
    exact PushBackMove_len ⟨h1, h2⟩ x
  · have hps : p < v.size := by omega
    by_cases hc : v.size < v.capacity
    · simp only [InsertMove, if_neg he, if_pos hc, SecureInsertMove, List.length_set]
      rw [shiftUpFrom_length (by omega) (by omega)]
      exact h2
    · have hcap : v.capacity < v.size + 1 := by omega
      have hu1 : (Reserve v (v.size + 1)).size = v.size := Reserve_size v _
      have hu2 : (Reserve v (v.size + 1)).data.length = v.size + 1 :=
        Reserve_length ⟨h1, h2⟩ hcap
      have hu3 : (Reserve v (v.size + 1)).capacity = v.size + 1 :=
        Reserve_capacity_grow hcap
      simp only [InsertMove, if_neg he, if_neg hc, SecureInsertMove, List.length_set]
      rw [hu1, shiftUpFrom_length (by omega) (by omega), hu2, hu3]

theorem Resize_len {v : SV α} (h : WF v) (n : Nat) :
    (Resize v n).data.length = (Resize v n).capacity :=
  (Resize_WF h n).2

theorem copyCtor_len {v : SV α} (h : WF v) :
    (copyCtor v).data.length = (copyCtor v).capacity := by
  obtain ⟨h1, h2⟩ := h
  simp only [copyCtor, writeFront_length, List.length_take, List.length_replicate]
  omega

theorem Erase_len {v : SV α} (h : WF v) {p : Nat} (hp : p < v.size) :
    (Erase v p).1.data.length = v.size := by
  obtain ⟨h1, h2⟩ := h
  simp only [Erase, writeFront_length, List.length_append, List.length_take,
    List.length_drop, List.length_replicate]
  omega

end SV

/-- C4 counterexample: on the vector of size 2 and capacity 4 obtained by two
`PushBack`s on a reserve-hint-4 vector, `Erase` at offset 0 swaps in a buffer
of 2 slots (the pre-call size) while `capacity_` stays 4, so `GetCapacity()`
no longer equals the number of slots of the held allocation. -/
theorem C4_erase_allocation_mismatch :
    (SV.PushBackCopy (SV.PushBackCopy (SV.mkReserved 4) 1) 2 : SV Nat)
      = ⟨[1, 2, 0, 0], 2, 4⟩ ∧
    (SV.Erase (⟨[1, 2, 0, 0], 2, 4⟩ : SV Nat) 0).1.data.length = 2 ∧
    (SV.Erase (⟨[1, 2, 0, 0], 2, 4⟩ : SV Nat) 0).1.capacity = 4 ∧
    (SV.Erase (⟨[1, 2, 0, 0], 2, 4⟩ : SV Nat) 0).1.data.length ≠
      (SV.Erase (⟨[1, 2, 0, 0], 2, 4⟩ : SV Nat) 0).1.capacity := by
  decide

/-- C4 (amended): for well-formed vectors (size ≤ capacity and the allocation
holding exactly `capacity_` slots), every public operation except `Erase`
again leaves `GetCapacity()` equal to the number of slots of the held
allocation; `Erase`, however, swaps in a replacement buffer of exactly the
pre-call `GetSize()` slots while leaving `capacity_` unchanged, so after
`Erase` the equality fails whenever the pre-call size differed from the
capacity. -/
theorem C4_capacity_is_allocation_amended {α : Type} [Inhabited α]
    (v w : SV α) (hv : SV.WF v) (hw : SV.WF w) :
    (∀ x : α, (SV.PushBackCopy v x).data.length = (SV.PushBackCopy v x).capacity) ∧
    (∀ x : α, (SV.PushBackMove v x).data.length = (SV.PushBackMove v x).capacity) ∧
    (∀ p x, (SV.InsertCopy v p x).1.data.length = (SV.InsertCopy v p x).1.capacity) ∧
    (∀ p x, p ≤ v.size →
      (SV.InsertMove v p x).1.data.length = (SV.InsertMove v p x).1.capacity) ∧
    ((SV.PopBack v).data.length = (SV.PopBack v).capacity) ∧
    (∀ n, (SV.Resize v n).data.length = (SV.Resize v n).capacity) ∧
    (∀ n, (SV.Reserve v n).data.length = (SV.Reserve v n).capacity) ∧
    ((SV.Clear v).data.length = (SV.Clear v).capacity) ∧
    ((SV.swapV v w).1.data.length = (SV.swapV v w).1.capacity) ∧
    ((SV.swapV v w).2.data.length = (SV.swapV v w).2.capacity) ∧
    ((SV.copyAssign v w).data.length = (SV.copyAssign v w).capacity) ∧
    ((SV.moveAssign v w).1.data.length = (SV.moveAssign v w).1.capacity) ∧
    ((SV.moveAssign v w).2.data.length = (SV.moveAssign v w).2.capacity) ∧
    (∀ p, p < v.size →
      (SV.Erase v p).1.data.length = v.size ∧
      (SV.Erase v p).1.capacity = v.capacity) := by
  refine ⟨fun x => SV.PushBackCopy_len hv x,
          fun x => SV.PushBackMove_len hv x,
          fun p x => SV.InsertCopy_len hv p x,
          fun p x hp => SV.InsertMove_len hv hp x,
          hv.2, fun n => SV.Resize_len hv n, ?_, hv.2, hw.2, hv.2,
          SV.copyCtor_len hw, hw.2, hv.2,
          fun p hp => ⟨SV.Erase_len hv hp, rfl⟩⟩
  intro n
  by_cases hn : n ≤ v.capacity
  · rw [SV.Reserve_noop hn]; exact hv.2
  · rw [SV.Reserve_length hv (by omega), SV.Reserve_capacity_grow (by omega)]

/-- C4 witness: the amended theorem applied to the concrete vector
`⟨[1,2,0,0], 2, 4⟩` and `Erase` at offset 0. -/
theorem C4_capacity_is_allocation_amended_witness :
    (SV.Erase (⟨[1, 2, 0, 0], 2, 4⟩ : SV Nat) 0).1.data.length = 2 ∧
    (SV.Erase (⟨[1, 2, 0, 0], 2, 4⟩ : SV Nat) 0).1.capacity = 4 := by
  have h := C4_capacity_is_allocation_amended (⟨[1, 2, 0, 0], 2, 4⟩ : SV Nat)
    (SV.empt : SV Nat) (by decide) (by decide)
  exact h.2.2.2.2.2.2.2.2.2.2.2.2.2 0 (by decide)

/-- C6 counterexample: move-assigning `B = {1,2}` from `A = {3}` is realised
by `swap(rhs)`, so afterwards `A` holds `B`'s prior two elements and reports
size 2, not 0 as the claim states. -/
theorem C6_move_assign_source_not_empty :
    ((SV.moveAssign (SV.fromList [1, 2]) (SV.fromList ([3] : List Nat))).2).size = 2 ∧
    ((SV.moveAssign (SV.fromList [1, 2]) (SV.fromList ([3] : List Nat))).2).size ≠ 0 := by
  decide

/-- C6 (amended): move-construction gives the new vector exactly the source's
elements, size and capacity and leaves the source empty (size 0, no buffer);
move-assignment (between distinct objects) is a swap, so the destination gets
the source's prior state while the source gets the destination's prior state
— it reports size 0 only when the destination was empty beforehand. -/
theorem C6_move_semantics_amended {α : Type} [Inhabited α] (a b : SV α) :
    (SV.moveCtor a).1 = a ∧
    (SV.moveCtor a).2.size = 0 ∧
    (SV.moveCtor a).2 = SV.empt ∧
    (SV.moveAssign b a).1 = a ∧
    (SV.moveAssign b a).2 = b :=
  ⟨rfl, rfl, rfl, rfl, rfl⟩

namespace SV

variable {α : Type} [Inhabited α]

omit [Inhabited α] in
theorem copyBackwardSteps_getD_low {l : List α} {sz k i : Nat} (d : α)
    (hi : i < sz + 1 - k) (hil : i < l.length) :
    (copyBackwardSteps l sz k).getD i d = l.getD i d := by
  unfold copyBackwardSteps
  rw [List.getD_append _ _ _ _ (by simp [List.length_take]; omega)]
  rw [List.getD_append _ _ _ _ (by simp [List.length_take]; omega)]
  exact getD_take_of_lt _ _ _ _ hi

theorem PushBackCopy_size (v : SV α) (x : α) :
    (PushBackCopy v x).size = v.size + 1 := by
  by_cases hc : v.size < v.capacity
  · simp only [PushBackCopy, if_pos hc]
  · simp only [PushBackCopy, if_neg hc, Reserve_size]

theorem PushBackMove_size (v : SV α) (x : α) :
    (PushBackMove v x).size = v.size + 1 := by
  by_cases hc : v.size < v.capacity
  · simp only [PushBackMove, if_pos hc]
  · simp only [PushBackMove, if_neg hc, Reserve_size]

theorem PushBackCopy_elemAt_new {v : SV α} (h : WF v) (x : α) :
    (PushBackCopy v x).elemAt v.size = x := by
  obtain ⟨h1, h2⟩ := h
  by_cases hc : v.size < v.capacity
  · simp only [PushBackCopy, if_pos hc, elemAt]
    exact getD_set_at _ _ _ _ (by omega)
  · have hcap : v.capacity < v.size + 1 := by omega
    have hlen : (Reserve v (v.size + 1)).data.length = v.size + 1 :=
      Reserve_length ⟨h1, h2⟩ hcap
    have hsz : (Reserve v (v.size + 1)).size = v.size := Reserve_size v _
    simp only [PushBackCopy, if_neg hc, elemAt, hsz]
    exact getD_set_at _ _ _ _ (by omega)

theorem PushBackMove_elemAt_new {v : SV α} (h : WF v) (x : α) :
    (PushBackMove v x).elemAt v.size = x := by
  obtain ⟨h1, h2⟩ := h
  by_cases hc : v.size < v.capacity
  · simp only [PushBackMove, if_pos hc, elemAt]
    exact getD_set_at _ _ _ _ (by omega)
  · have hcap : v.capacity < v.size * 2 + 1 := by omega
    have hlen : (Reserve v (v.size * 2 + 1)).data.length = v.size * 2 + 1 :=
      Reserve_length ⟨h1, h2⟩ hcap
    have hsz : (Reserve v (v.size * 2 + 1)).size = v.size := Reserve_size v _
    simp only [PushBackMove, if_neg hc, elemAt, hsz]
    exact getD_set_at _ _ _ _ (by omega)

theorem PushBackCopy_elemAt_old {v : SV α} (h : WF v) (x : α) {i : Nat}
    (hi : i < v.size) : (PushBackCopy v x).elemAt i = v.elemAt i := by
  obtain ⟨h1, h2⟩ := h
  by_cases hc : v.size < v.capacity
  · simp only [PushBackCopy, if_pos hc, elemAt]
    exact getD_set_other _ _ _ _ _ (by omega)
  · have hsz : (Reserve v (v.size + 1)).size = v.size := Reserve_size v _
    simp only [PushBackCopy, if_neg hc, elemAt, hsz]
    rw [getD_set_other _ _ _ _ _ (by omega)]
    exact Reserve_elemAt ⟨h1, h2⟩ _ hi

theorem PushBackMove_elemAt_old {v : SV α} (h : WF v) (x : α) {i : Nat}
    (hi : i < v.size) : (PushBackMove v x).elemAt i = v.elemAt i := by
  obtain ⟨h1, h2⟩ := h
  by_cases hc : v.size < v.capacity
  · simp only [PushBackMove, if_pos hc, elemAt]
    exact getD_set_other _ _ _ _ _ (by omega)
  · have hsz : (Reserve v (v.size * 2 + 1)).size = v.size := Reserve_size v _
    simp only [PushBackMove, if_neg hc, elemAt, hsz]
    rw [getD_set_other _ _ _ _ _ (by omega)]
    exact Reserve_elemAt ⟨h1, h2⟩ _ hi

end SV

/-- C5 counterexample: inserting at offset 0 into the vector `[1,2,3]` with
spare capacity 4 runs the copy overload of `SeсureInsert`; if the third
element copy assignment of its in-place backward shift throws, the live
buffer has already become `[1,2,2,3]` — the logical element at index 2 was
overwritten even though size and capacity are unchanged, so the original
vector is NOT left unmodified on error. -/
theorem C5_insert_copy_fault_modifies :
    SV.SecureInsertCopyFault (⟨[1, 2, 3, 0], 3, 4⟩ : SV Nat) 2
      = ⟨[1, 2, 2, 3], 3, 4⟩ ∧
    (SV.SecureInsertCopyFault (⟨[1, 2, 3, 0], 3, 4⟩ : SV Nat) 2).elemAt 2 ≠
      (⟨[1, 2, 3, 0], 3, 4⟩ : SV Nat).elemAt 2 := by
  decide

/-- C5 (amended): a throw while building the replacement buffer leaves the
source of a copy construction unmodified (the partially built buffer is
discarded and the source is only read); `Reserve`, `Resize(grow)` and the
copy `PushBack` construct their replacement buffer (default constructions
and moves only, no element copies) before mutating any member, so a throw
there also leaves the vector unmodified.  The copy path of `Insert`, however,
performs its one-slot backward shift in place on the live buffer before any
commit point: a throw after `k` element copies leaves size and capacity
unchanged (`k = 0` leaves the vector intact, and all slots at indices ≤
size − k keep their values) but the slots above may already be overwritten,
i.e. the vector can be modified on error. -/
theorem C5_throw_safety_amended {α : Type} [Inhabited α] (v : SV α)
    (k p : Nat) (hWF : SV.WF v) (hp : p ≤ v.size) (hk : k ≤ v.size - p) :
    (SV.copyCtorFault v k).1 = v ∧
    (SV.SecureInsertCopyFault v k).size = v.size ∧
    (SV.SecureInsertCopyFault v k).capacity = v.capacity ∧
    SV.SecureInsertCopyFault v 0 = v ∧
    (∀ i, i ≤ v.size - k →
      (SV.SecureInsertCopyFault v k).elemAt i = v.elemAt i) := by
  obtain ⟨h1, h2⟩ := hWF
  refine ⟨rfl, rfl, rfl, ?_, ?_⟩
  · show ({ v with data := SV.copyBackwardSteps v.data v.size 0 } : SV α) = v
    rw [SV.copyBackwardSteps_zero]
  · intro i hi
    by_cases hil : i < v.data.length
    · simp only [SV.SecureInsertCopyFault, SV.elemAt]
      exact SV.copyBackwardSteps_getD_low default (by omega) hil
    · have hk0 : k = 0 := by omega
      subst hk0
      simp only [SV.SecureInsertCopyFault, SV.elemAt, SV.copyBackwardSteps_zero]

/-- C5 witness: the amended theorem applied to the vector `⟨[1,2,3,0], 3, 4⟩`
with the throw after 2 element copies of the shift for an insertion at
offset 0. -/
theorem C5_throw_safety_amended_witness :
    (SV.SecureInsertCopyFault (⟨[1, 2, 3, 0], 3, 4⟩ : SV Nat) 2).size = 3 ∧
    (SV.SecureInsertCopyFault (⟨[1, 2, 3, 0], 3, 4⟩ : SV Nat) 2).capacity = 4 ∧
    (SV.SecureInsertCopyFault (⟨[1, 2, 3, 0], 3, 4⟩ : SV Nat) 2).elemAt 1 = 2 := by
  have h := C5_throw_safety_amended (⟨[1, 2, 3, 0], 3, 4⟩ : SV Nat) 2 0
    (by decide) (by decide) (by decide)
  exact ⟨h.2.1, h.2.2.1, (h.2.2.2.2 1 (by decide)).trans (by decide)⟩

/-- C7: both overloads of PushBack store the value at index `size` and
increment the size, preserving all previously stored values at their indices;
with spare capacity the capacity is unchanged (in-place store), and at full
capacity the new capacity is `size + 1` for the copy overload and
`size * 2 + 1` for the move overload. -/
theorem C7_pushback_correct {α : Type} [Inhabited α] (v : SV α) (x : α)
    (h : SV.WF v) :
    (SV.PushBackCopy v x).elemAt v.size = x ∧
    (SV.PushBackCopy v x).size = v.size + 1 ∧
    (∀ i, i < v.size → (SV.PushBackCopy v x).elemAt i = v.elemAt i) ∧
    (SV.PushBackMove v x).elemAt v.size = x ∧
    (SV.PushBackMove v x).size = v.size + 1 ∧
    (∀ i, i < v.size → (SV.PushBackMove v x).elemAt i = v.elemAt i) ∧
    (v.size < v.capacity →
      (SV.PushBackCopy v x).capacity = v.capacity ∧
      (SV.PushBackMove v x).capacity = v.capacity) ∧
    (v.capacity ≤ v.size →
      (SV.PushBackCopy v x).capacity = v.size + 1 ∧
      (SV.PushBackMove v x).capacity = v.size * 2 + 1) := by
  refine ⟨SV.PushBackCopy_elemAt_new h x, SV.PushBackCopy_size v x,
          fun i hi => SV.PushBackCopy_elemAt_old h x hi,
          SV.PushBackMove_elemAt_new h x, SV.PushBackMove_size v x,
          fun i hi => SV.PushBackMove_elemAt_old h x hi, ?_, ?_⟩
  · intro hc
    constructor
    · simp only [SV.PushBackCopy, if_pos hc]
    · simp only [SV.PushBackMove, if_pos hc]
  · intro hc
    have hc2 : ¬ v.size < v.capacity := by omega
    constructor
    · simp only [SV.PushBackCopy, if_neg hc2]
      exact SV.Reserve_capacity_grow (by omega)
    · simp only [SV.PushBackMove, if_neg hc2]
      exact SV.Reserve_capacity_grow (by omega)

/-- C7 witness: the theorem applied to the vector `⟨[1,2,0,0], 2, 4⟩` (size 2,
capacity 4) and the item 9. -/
theorem C7_pushback_correct_witness :
    (SV.PushBackCopy (⟨[1, 2, 0, 0], 2, 4⟩ : SV Nat) 9).elemAt 2 = 9 ∧
    (SV.PushBackCopy (⟨[1, 2, 0, 0], 2, 4⟩ : SV Nat) 9).size = 3 ∧
    (SV.PushBackMove (⟨[1, 2, 0, 0], 2, 4⟩ : SV Nat) 9).capacity = 4 := by
  have h := C7_pushback_correct (⟨[1, 2, 0, 0], 2, 4⟩ : SV Nat) 9 (by decide)
  exact ⟨h.1, h.2.1, (h.2.2.2.2.2.2.1 (by decide)).2⟩


/-- C8: Resize to a smaller size only shrinks the logical size (capacity and
buffer untouched); Resize to `newSize ≥ size` preserves the first `size`
element values in order, default-initialises indices `[size, newSize)`, and
sets both size and capacity to exactly `newSize`. -/
theorem C8_resize_correct {α : Type} [Inhabited α] (v : SV α) (n : Nat)
    (h : SV.WF v) :
    (n < v.size →
      (SV.Resize v n).size = n ∧
      (SV.Resize v n).capacity = v.capacity ∧
      (SV.Resize v n).data = v.data) ∧
    (v.size ≤ n →
      (∀ i, i < v.size → (SV.Resize v n).elemAt i = v.elemAt i) ∧
      (∀ i, v.size ≤ i → i < n → (SV.Resize v n).elemAt i = default) ∧
      (SV.Resize v n).size = n ∧
      (SV.Resize v n).capacity = n) := by
  obtain ⟨h1, h2⟩ := h
  constructor
  · intro hn
    refine ⟨?_, ?_, ?_⟩ <;> simp only [SV.Resize, if_pos hn]
  · intro hn
    have hn2 : ¬ n < v.size := by omega
    have htk : (v.data.take v.size).length = v.size := by
      simp only [List.length_take]
      omega
    refine ⟨?_, ?_, ?_, ?_⟩
    · intro i hi
      simp only [SV.Resize, if_neg hn2, SV.elemAt]
      rw [getD_writeFront_lt _ _ _ _ (by omega)]
      exact getD_take_of_lt _ _ _ _ hi
    · intro i hi1 hi2
      simp only [SV.Resize, if_neg hn2, SV.elemAt, writeFront]
      rw [List.getD_append_right _ _ _ _ (by omega), htk, getD_drop_add]
      have hidx : v.size + (i - v.size) = i := by omega
      rw [hidx]
      exact getD_replicate_of_lt _ _ _ _ hi2
    · simp only [SV.Resize, if_neg hn2]
    · simp only [SV.Resize, if_neg hn2]

/-- C8 witness: the theorem applied to the full vector `⟨[1,2,3], 3, 3⟩` grown
to size 5, and to the same vector shrunk to size 1. -/
theorem C8_resize_correct_witness :
    (SV.Resize (⟨[1, 2, 3], 3, 3⟩ : SV Nat) 5).elemAt 1 = 2 ∧
    (SV.Resize (⟨[1, 2, 3], 3, 3⟩ : SV Nat) 5).elemAt 4 = 0 ∧
    (SV.Resize (⟨[1, 2, 3], 3, 3⟩ : SV Nat) 5).size = 5 ∧
    (SV.Resize (⟨[1, 2, 3], 3, 3⟩ : SV Nat) 5).capacity = 5 := by
  have h := (C8_resize_correct (⟨[1, 2, 3], 3, 3⟩ : SV Nat) 5 (by decide)).2
    (by decide)
  exact ⟨(h.1 1 (by decide)).trans (by decide),
         h.2.1 4 (by decide) (by decide), h.2.2.1, h.2.2.2⟩

/-- C9: Erase at a valid position `p < size` keeps the elements before `p`,
shifts each later element one slot left, decrements the size by exactly 1,
and returns the offset `p` of the element now occupying the erased slot —
equal to the new end offset when the last element was erased. -/
theorem C9_erase_correct {α : Type} [Inhabited α] (v : SV α) (p : Nat)
    (h : SV.WF v) (hp : p < v.size) :
    (∀ i, i < p → (SV.Erase v p).1.elemAt i = v.elemAt i) ∧
    (∀ i, p ≤ i → i < v.size - 1 → (SV.Erase v p).1.elemAt i = v.elemAt (i + 1)) ∧
    (SV.Erase v p).1.size = v.size - 1 ∧
    (SV.Erase v p).2 = p ∧
    (p = v.size - 1 → (SV.Erase v p).2 = (SV.Erase v p).1.size) := by
  obtain ⟨h1, h2⟩ := h
  have hmoved : (v.data.take p ++ (v.data.drop (p + 1)).take (v.size - (p + 1))).length
      = v.size - 1 := by
    simp only [List.length_append, List.length_take, List.length_drop]
    omega
  have htk : (v.data.take p).length = p := by
    simp only [List.length_take]
    omega
  refine ⟨?_, ?_, rfl, rfl, ?_⟩
  · intro i hi
    simp only [SV.Erase, SV.elemAt]
    rw [getD_writeFront_lt _ _ _ _ (by omega)]
    rw [List.getD_append _ _ _ _ (by omega)]
    exact getD_take_of_lt _ _ _ _ hi
  · intro i hi1 hi2
    simp only [SV.Erase, SV.elemAt]
    rw [getD_writeFront_lt _ _ _ _ (by omega)]
    rw [List.getD_append_right _ _ _ _ (by omega), htk]
    rw [getD_take_of_lt _ _ _ _ (by omega), getD_drop_add]
    have hidx : p + 1 + (i - p) = i + 1 := by omega
    rw [hidx]
  · intro hpe
    exact hpe

/-- C9 witness: the theorem applied to the full vector `⟨[1,2,3], 3, 3⟩` with
an erase at offset 1. -/
theorem C9_erase_correct_witness :
    (SV.Erase (⟨[1, 2, 3], 3, 3⟩ : SV Nat) 1).1.elemAt 0 = 1 ∧
    (SV.Erase (⟨[1, 2, 3], 3, 3⟩ : SV Nat) 1).1.elemAt 1 = 3 ∧
    (SV.Erase (⟨[1, 2, 3], 3, 3⟩ : SV Nat) 1).1.size = 2 := by
  have h := C9_erase_correct (⟨[1, 2, 3], 3, 3⟩ : SV Nat) 1 (by decide) (by decide)
  exact ⟨(h.1 0 (by decide)).trans (by decide),
         (h.2.1 1 (by decide) (by decide)).trans (by decide), h.2.2.1⟩

/-- C10: `At(index)` (same body for the mutable and const overloads) fails
with the out-of-range error exactly when `index ≥ GetSize()`, and otherwise
returns the element stored at that index; it never writes any member. -/
theorem C10_at_correct {α : Type} [Inhabited α] (v : SV α) (i : Nat) :
    ((∃ e, SV.At v i = .error e) ↔ v.size ≤ i) ∧
    (i < v.size → SV.At v i = .ok (v.elemAt i)) := by
  constructor
  · constructor
    · rintro ⟨e, he⟩
      by_contra hlt
      rw [SV.At, if_neg (by omega : ¬ i ≥ v.size)] at he
      exact Except.noConfusion he
    · intro hge
      exact ⟨"out of range", by rw [SV.At, if_pos (by omega : i ≥ v.size)]⟩
  · intro hlt
    rw [SV.At, if_neg (by omega : ¬ i ≥ v.size)]
    rfl

/-- C10 witness: the theorem applied to the vector `⟨[1,2,3], 3, 3⟩` at the
in-range index 1 and the out-of-range index 3. -/
theorem C10_at_correct_witness :
    SV.At (⟨[1, 2, 3], 3, 3⟩ : SV Nat) 1 = .ok 2 ∧
    (∃ e, SV.At (⟨[1, 2, 3], 3, 3⟩ : SV Nat) 3 = .error e) := by
  constructor
  · exact ((C10_at_correct (⟨[1, 2, 3], 3, 3⟩ : SV Nat) 1).2 (by decide)).trans rfl
  · exact (C10_at_correct (⟨[1, 2, 3], 3, 3⟩ : SV Nat) 3).1.mpr (by decide)

end SimpleVec
